import Mathlib

/-!
# TaskLedger — verification of spec claims against the frontend source

Shallow embedding of the TaskLedger frontend (Next.js/TypeScript under
`src/frontend`) and, where the backend referenced by the spec is not part of
the repository snapshot, models built from the spec's own words (marked
`Modelled from the spec:`).  Confidence scores are rationals; JavaScript
number comparisons such as `score * 100 >= 85` are embedded literally over ℚ.
-/

namespace TaskLedger

/-- Badge color classes used by the UI (`bg-green-100`, `bg-yellow-100`,
`bg-red-100` in the Tailwind markup). -/
inductive BadgeColor
  | green
  | yellow
  | red
deriving DecidableEq, Repr

/-- Coarse confidence label HIGH / MEDIUM / LOW. -/
inductive ConfLabel
  | HIGH
  | MEDIUM
  | LOW
deriving DecidableEq, Repr

/-- The string rendered for a label (`"HIGH"`, `"MEDIUM"`, `"LOW"`). -/
def labelString : ConfLabel → String
  | .HIGH => "HIGH"
  | .MEDIUM => "MEDIUM"
  | .LOW => "LOW"

/-- The badge color paired with each label on the tasks page
(`getConfidenceBadge`): HIGH is green, MEDIUM is yellow, LOW is red. -/
def colorOfLabel : ConfLabel → BadgeColor
  | .HIGH => .green
  | .MEDIUM => .yellow
  | .LOW => .red

/-- The label a badge color stands for (inverse of `colorOfLabel`). -/
def labelOfColor : BadgeColor → ConfLabel
  | .green => .HIGH
  | .yellow => .MEDIUM
  | .red => .LOW

/-- `getConfidenceBadge` from `src/frontend/app/tasks/page.tsx` (lines 73–80):
branches on the stored `confidence` label string, not on the numeric score,
and picks the badge color class. -/
def getConfidenceBadgeColor (confidence : String) : BadgeColor :=
  if confidence = "HIGH" then .green
  else if confidence = "MEDIUM" then .yellow
  else .red

/-- The confidence badge cell of `src/frontend/app/meetings/[id]/page.tsx`
(lines 272–280): `item.confidence_score * 100 >= 85` is green,
`>= 70` is yellow, otherwise red. -/
def meetingDetailConfidenceColor (confidence_score : ℚ) : BadgeColor :=
  if confidence_score * 100 ≥ 85 then .green
  else if confidence_score * 100 ≥ 70 then .yellow
  else .red

/-- The `confidenceDistribution` buckets of the analytics page
(`src/unnamed/part_003`, lines 38–42): `HIGH (80-100%)`, `MEDIUM (60-79%)`,
`LOW (0-59%)`, applied to a score in `[0,1]` read in percent. -/
def analyticsConfidenceLabel (confidence_score : ℚ) : ConfLabel :=
  if confidence_score * 100 ≥ 80 then .HIGH
  else if confidence_score * 100 ≥ 60 then .MEDIUM
  else .LOW

/-! ## The frontend API client's error handling (`src/frontend/lib/api.ts`) -/

/-- The parsed JSON body of an HTTP response, reduced to the part
`APIClient.request` inspects: the optional top-level `detail` string; the rest
of the document is abstracted as `payload`. -/
structure JsonBody where
  detail : Option String
  payload : String
deriving DecidableEq

/-- An HTTP response as `APIClient.request` observes it: the `ok` flag, the
numeric `status`, and the body's JSON parse result (`none` when
`response.json()` rejects). -/
structure HttpResponse where
  ok : Bool
  status : Nat
  body : Option JsonBody
deriving DecidableEq

/-- `await response.json().catch(() => ({ detail: 'An error occurred' }))`
(src/frontend/lib/api.ts line 85): the parse result, replaced by a fallback
object whose `detail` is `"An error occurred"` when parsing fails. -/
def errorBodyDetail (body : Option JsonBody) : Option String :=
  match body with
  | none => some "An error occurred"
  | some b => b.detail

/-- Line 86 of src/frontend/lib/api.ts: JavaScript `error.detail || ...`
falls through to the status template when `detail` is absent or is the empty
string, both falsy. -/
def requestErrorMessage (resp : HttpResponse) : String :=
  match errorBodyDetail resp.body with
  | some d => if d = "" then "HTTP error! status: " ++ toString resp.status else d
  | none => "HTTP error! status: " ++ toString resp.status

/-- `APIClient.request` (src/frontend/lib/api.ts lines 70–90): a non-ok
response throws an `Error` carrying `requestErrorMessage`; an ok response
returns the parsed JSON body. -/
def request (resp : HttpResponse) : Except String (Option JsonBody) :=
  if resp.ok then .ok resp.body
  else .error (requestErrorMessage resp)

/-- The error-message rule exactly as claim C9 words it: the body's `detail`
when the body is parseable JSON containing one, otherwise the status
template. -/
def claimedErrorMessage (resp : HttpResponse) : String :=
  match resp.body with
  | some b =>
    match b.detail with
    | some d => d
    | none => "HTTP error! status: " ++ toString resp.status
  | none => "HTTP error! status: " ++ toString resp.status

/-! ## The new-meeting form's participant list
(`src/frontend/app/meetings/new/page.tsx`) -/

/-- The initial participants of the new-meeting form (line 19). -/
def initialParticipants : List String := ["Sarah Chen", "Michael Torres", "Emma Davis"]

/-- `addParticipant` (lines 24–29): trims the candidate and appends it only
when the trimmed name is non-empty and not already in the list. -/
def addParticipant (participants : List String) (newParticipant : String) :
    List String :=
  if newParticipant.trim ≠ "" ∧ newParticipant.trim ∉ participants then
    participants ++ [newParticipant.trim]
  else participants

/-- `removeParticipant` (lines 31–33): keeps exactly the entries different
from the given name. -/
def removeParticipant (participants : List String) (name : String) :
    List String :=
  participants.filter (fun p => p ≠ name)

/-- The participant lists the form can reach from its initial state through
any sequence of add/remove interactions. -/
inductive ReachableParticipants : List String → Prop
  | init : ReachableParticipants initialParticipants
  | add (ps : List String) (c : String) :
      ReachableParticipants ps → ReachableParticipants (addParticipant ps c)
  | remove (ps : List String) (n : String) :
      ReachableParticipants ps → ReachableParticipants (removeParticipant ps n)

/-! ## The relational store behind the REST API

The backend (FastAPI + SQLAlchemy per the README) is not part of the
repository snapshot under `src/`; its entities and operations are modelled
from the spec (§2, §3, §4.2, §6, §7), with row shapes taken from the
TypeScript interfaces of `src/frontend/lib/api.ts`. -/

/-- A stored action item row: the `ActionItem` interface
(src/frontend/lib/api.ts lines 10–23) plus the `meeting_id` foreign key the
`/meetings/<id>/action-items` route implies. -/
structure StoredActionItem where
  id : String
  meeting_id : String
  description : String
  owner : Option String
  deadline : Option String
  priority : String
  confidence : String
  confidence_score : ℚ
  is_complete : Bool
deriving DecidableEq

/-- A stored risk flag row: the `RiskFlag` interface (lines 25–31) plus its
`action_item_id` foreign key. -/
structure StoredRiskFlag where
  id : Nat
  action_item_id : String
  risk_type : String
  description : String
  severity : String
  suggested_clarification : Option String
deriving DecidableEq

/-- A stored clarification question row: the `ClarificationQuestion`
interface (lines 33–40) plus its `action_item_id` foreign key.  The
interface's `field` attribute is named `fieldName` here. -/
structure StoredClarification where
  id : Nat
  action_item_id : String
  question : String
  fieldName : String
  priority : String
  answer : Option String
  answered_at : Option String
deriving DecidableEq

/-- A stored meeting row: the `Meeting` interface (lines 42–51). -/
structure StoredMeeting where
  id : String
  meeting_title : String
  meeting_text : String
  meeting_date : String
  participants : List String
  total_confidence : ℚ
deriving DecidableEq

/-- Modelled from the spec: §2's persistence layer — a relational store of
meetings, action items, risk flags and clarification questions linked by
foreign keys. -/
structure Store where
  meetings : List StoredMeeting
  actionItems : List StoredActionItem
  riskFlags : List StoredRiskFlag
  clarifications : List StoredClarification
deriving DecidableEq

/-- The store with no rows. -/
def emptyStore : Store := ⟨[], [], [], []⟩

/-- The body shape of `APIClient.updateActionItem`
(src/frontend/lib/api.ts lines 127–140): an optional subset of
`owner`, `deadline`, `priority`, `is_complete`; `none` means the field is
absent from the PUT body. -/
structure ActionItemUpdate where
  owner : Option String
  deadline : Option String
  priority : Option String
  is_complete : Option Bool
deriving DecidableEq

/-- Modelled from the spec: the backend `PUT /action-items/<id>` handler is
not under `src/`; §4.2 specifies field-level partial updates on ActionItem,
so exactly the fields present in the request overwrite the stored row. -/
def applyUpdate (item : StoredActionItem) (u : ActionItemUpdate) :
    StoredActionItem :=
  { item with
    owner := match u.owner with | some v => some v | none => item.owner
    deadline := match u.deadline with | some v => some v | none => item.deadline
    priority := u.priority.getD item.priority
    is_complete := u.is_complete.getD item.is_complete }

/-- Modelled from the spec: `PUT /action-items/<id>` applies the partial
update to the row with the given id and leaves every other row untouched. -/
def updateActionItem (st : Store) (targetId : String) (u : ActionItemUpdate) :
    Store :=
  { st with actionItems :=
      st.actionItems.map (fun it => if it.id = targetId then applyUpdate it u else it) }

/-- The `PUT /action-items/<id>` body sent by `handleToggleComplete` when it
marks an item complete: only `is_complete` is present, set to `true`. -/
def completeTrueUpdate : ActionItemUpdate := ⟨none, none, none, some true⟩

/-- Modelled from the spec: the backend `DELETE /meetings/<id>` handler is
not under `src/`; §3's invariants say deleting a Meeting cascades to its
ActionItems and their children, so the meeting row, its action item rows, and
the risk-flag and clarification rows of those items are all removed. -/
def deleteMeeting (st : Store) (meetingId : String) : Store :=
  let doomed := st.actionItems.filter (fun it => it.meeting_id == meetingId)
  { meetings := st.meetings.filter (fun m => m.id != meetingId)
    actionItems := st.actionItems.filter (fun it => it.meeting_id != meetingId)
    riskFlags := st.riskFlags.filter
      (fun r => !(doomed.any (fun it => it.id == r.action_item_id)))
    clarifications := st.clarifications.filter
      (fun c => !(doomed.any (fun it => it.id == c.action_item_id))) }

/-- Modelled from the spec: the backend `POST /action-items/<id>/clarify`
handler is not under `src/`; §3 says the answer field is settable once, so
the answer and its timestamp are recorded only on a question that is still
unanswered, and any other question is left untouched. -/
def answerClarification (st : Store) (targetItemId : String)
    (questionId : Nat) (ans now : String) : Store :=
  { st with clarifications := st.clarifications.map (fun c =>
      if c.action_item_id = targetItemId ∧ c.id = questionId ∧ c.answer = none then
        { c with answer := some ans, answered_at := some now }
      else c) }

/-! ## The extraction client and meeting submission -/

/-- The `POST /meetings` request body (`MeetingInput`,
src/frontend/lib/api.ts lines 3–8); the new-meeting form always sends all
four fields. -/
structure MeetingInput where
  meeting_text : String
  participants : List String
  meeting_title : String
  meeting_date : String
deriving DecidableEq

/-- A risk flag draft as extracted by the model (no database ids yet). -/
structure ExtractedRisk where
  risk_type : String
  description : String
  severity : String
  suggested_clarification : Option String
deriving DecidableEq

/-- A clarification question draft as extracted by the model; questions are
created unanswered. -/
structure ExtractedClarification where
  question : String
  fieldName : String
  priority : String
deriving DecidableEq

/-- An action item draft as extracted by the model (§4.1 output contract). -/
structure ExtractedItem where
  description : String
  owner : Option String
  deadline : Option String
  priority : String
  confidence_score : ℚ
  risks : List ExtractedRisk
  clarifications : List ExtractedClarification
deriving DecidableEq

/-- The extraction payload: an ordered sequence of action item drafts plus
the overall meeting confidence. -/
structure ExtractionPayload where
  items : List ExtractedItem
  total_confidence : ℚ
deriving DecidableEq

/-- Modelled from the spec: §4.1 — "the returned payload is schema-validated
before acceptance"; the schema bounds every confidence score to the
probability interval `[0,1]` (§3 invariants). -/
def payloadValid (p : ExtractionPayload) : Bool :=
  decide (0 ≤ p.total_confidence) && decide (p.total_confidence ≤ 1) &&
    p.items.all (fun it =>
      decide (0 ≤ it.confidence_score) && decide (it.confidence_score ≤ 1))

/-- Modelled from the spec: §4.1 — a model client is the sequence of raw
per-attempt outcomes: attempt `k` either fails transiently (`none`: timeout,
rate limit, unparseable output) or returns a payload, which may still be
non-conforming.  Each retry is a fresh, independent call. -/
def ModelClient : Type := Nat → Option ExtractionPayload

/-- Modelled from the spec: §4.1 — a payload that does not conform to the
schema is treated as a transient failure, so the accepted outcome of attempt
`k` is the raw outcome filtered through validation. -/
def acceptedAttempt (client : ModelClient) (k : Nat) :
    Option ExtractionPayload :=
  match client k with
  | none => none
  | some p => if payloadValid p then some p else none

/-- Modelled from the spec: §4.1 — the bounded retry loop: run attempts
`start, start+1, …` while `fuel` remains, return the first accepted payload,
and fail once the attempt budget is exhausted. -/
def retryFrom (client : ModelClient) (start fuel : Nat) :
    Option ExtractionPayload :=
  match fuel with
  | 0 => none
  | f + 1 =>
    match acceptedAttempt client start with
    | some p => some p
    | none => retryFrom client (start + 1) f

/-- Modelled from the spec: the full extraction call under the retry ceiling
(the bounded number of attempts). -/
def retryExtract (client : ModelClient) (ceiling : Nat) :
    Option ExtractionPayload :=
  retryFrom client 0 ceiling

/-- The id given to the `k`-th action item persisted for a meeting. -/
def genItemId (meetingId : String) (k : Nat) : String :=
  meetingId ++ "-item-" ++ toString k

/-- Modelled from the spec: §3 — the coarse HIGH/MEDIUM/LOW confidence label
is derived from the numeric score; the concrete thresholds the repository
displays for score buckets (80% and 60%, analytics page and tasks-page filter
legend) are used. -/
def derivedLabel (s : ℚ) : String := labelString (analyticsConfidenceLabel s)

/-- The action item row persisted for the draft at position `ik.1`. -/
def extractedItemRow (mid : String) (ik : Nat × ExtractedItem) :
    StoredActionItem :=
  { id := genItemId mid ik.1
    meeting_id := mid
    description := ik.2.description
    owner := ik.2.owner
    deadline := ik.2.deadline
    priority := ik.2.priority
    confidence := derivedLabel ik.2.confidence_score
    confidence_score := ik.2.confidence_score
    is_complete := false }

/-- The risk flag rows persisted for the draft at position `ik.1`. -/
def extractedRiskRows (mid : String) (ik : Nat × ExtractedItem) :
    List StoredRiskFlag :=
  ik.2.risks.enum.map (fun rk =>
    ⟨rk.1, genItemId mid ik.1, rk.2.risk_type, rk.2.description, rk.2.severity,
      rk.2.suggested_clarification⟩)

/-- The clarification rows persisted for the draft at position `ik.1`,
created unanswered. -/
def extractedClarRows (mid : String) (ik : Nat × ExtractedItem) :
    List StoredClarification :=
  ik.2.clarifications.enum.map (fun ck =>
    ⟨ck.1, genItemId mid ik.1, ck.2.question, ck.2.fieldName, ck.2.priority,
      none, none⟩)

/-- The meeting row persisted for a submission. -/
def newMeetingRow (mid : String) (input : MeetingInput)
    (p : ExtractionPayload) : StoredMeeting :=
  ⟨mid, input.meeting_title, input.meeting_text, input.meeting_date,
    input.participants, p.total_confidence⟩

/-- Modelled from the spec: §7 — writing a validated extraction payload for
meeting `mid` into the store in one transaction: the meeting row plus every
extracted action item with all of its children. -/
def persistExtraction (st : Store) (mid : String) (input : MeetingInput)
    (p : ExtractionPayload) : Store :=
  { meetings := st.meetings ++ [newMeetingRow mid input p]
    actionItems := st.actionItems ++ p.items.enum.map (extractedItemRow mid)
    riskFlags := st.riskFlags ++ (p.items.enum.map (extractedRiskRows mid)).flatten
    clarifications :=
      st.clarifications ++ (p.items.enum.map (extractedClarRows mid)).flatten }

/-- Modelled from the spec: §6/§7 — `POST /meetings` runs the retry-wrapped
extraction and, only on success, persists the meeting with all extracted
items; after exhausted retries it fails and is surfaced as an extraction
failure. -/
def submitMeeting (st : Store) (input : MeetingInput) (client : ModelClient)
    (ceiling : Nat) (mid : String) : Except String Store :=
  match retryExtract client ceiling with
  | some p => .ok (persistExtraction st mid input p)
  | none => .error "extraction failed"

/-- The durable store after a submission: the transaction's result on
success, the untouched previous store on failure (§7: nothing durably
written). -/
def storeAfterSubmit (st : Store) (input : MeetingInput)
    (client : ModelClient) (ceiling : Nat) (mid : String) : Store :=
  match submitMeeting st input client ceiling mid with
  | .ok st' => st'
  | .error _ => st

/-- The stores reachable from the empty store through the API's mutating
operations. -/
inductive ReachableStore : Store → Prop
  | empty : ReachableStore emptyStore
  | submit (st : Store) (input : MeetingInput) (client : ModelClient)
      (ceiling : Nat) (mid : String) :
      ReachableStore st →
      ReachableStore (storeAfterSubmit st input client ceiling mid)
  | update (st : Store) (i : String) (u : ActionItemUpdate) :
      ReachableStore st → ReachableStore (updateActionItem st i u)
  | clarify (st : Store) (i : String) (q : Nat) (ans now : String) :
      ReachableStore st → ReachableStore (answerClarification st i q ans now)
  | delete (st : Store) (mid : String) :
      ReachableStore st → ReachableStore (deleteMeeting st mid)

/-! ## Concrete fixtures used by witness and counterexample theorems -/

/-- A concrete submission body (§8's example scenario). -/
def input0 : MeetingInput :=
  ⟨"Mike, prepare the migration guide by February 1st", ["Mike Johnson"],
    "Planning Sync", "2026-02-01"⟩

/-- A concrete extracted action item draft with confidence score 1. -/
def item0 : ExtractedItem :=
  ⟨"prepare the migration guide", some "Mike Johnson", some "2026-02-01",
    "HIGH", 1, [], []⟩

/-- A concrete schema-conforming extraction payload. -/
def payload0 : ExtractionPayload := ⟨[item0], 1⟩

/-- A model client that succeeds on every attempt. -/
def client0 : ModelClient := fun _ => some payload0

/-- A model client that fails once, then succeeds. -/
def client1 : ModelClient := fun k => if k = 0 then none else some payload0

/-- A model client that fails on every attempt. -/
def clientFail : ModelClient := fun _ => none

/-- The meeting row `client0`-driven submission of `input0` persists. -/
def meetingRow0 : StoredMeeting := newMeetingRow "m1" input0 payload0

/-- A concrete stored meeting row. -/
def meetingRow1 : StoredMeeting :=
  ⟨"m1", "Leads", "transcript one", "2026-01-01", ["A"], 1⟩

/-- A second concrete stored meeting row. -/
def meetingRow2 : StoredMeeting :=
  ⟨"m2", "Sync", "transcript two", "2026-01-02", ["B"], 0⟩

/-- A concrete action item row of meeting `m1`. -/
def itemRow1 : StoredActionItem :=
  ⟨"a1", "m1", "draft the brief", none, none, "HIGH", "HIGH", 1, false⟩

/-- A concrete action item row of meeting `m2`. -/
def itemRow2 : StoredActionItem :=
  ⟨"a2", "m2", "collect figures", none, none, "LOW", "LOW", 0, false⟩

/-- A concrete risk flag row attached to item `a1`. -/
def flagRow1 : StoredRiskFlag :=
  ⟨1, "a1", "missing_deadline", "no deadline stated", "HIGH", none⟩

/-- A concrete risk flag row attached to item `a2`. -/
def flagRow2 : StoredRiskFlag :=
  ⟨2, "a2", "missing_owner", "no owner stated", "LOW", none⟩

/-- A concrete clarification row on `a1`, already answered. -/
def clarRow1 : StoredClarification :=
  ⟨1, "a1", "Who owns this?", "owner", "HIGH", some "Mike", some "2026-01-03"⟩

/-- A concrete clarification row on `a2`, still unanswered. -/
def clarRow2 : StoredClarification :=
  ⟨2, "a2", "When is it due?", "deadline", "LOW", none, none⟩

/-- A concrete populated store with two meetings and their children. -/
def store1 : Store :=
  ⟨[meetingRow1, meetingRow2], [itemRow1, itemRow2], [flagRow1, flagRow2],
    [clarRow1, clarRow2]⟩

/-! ## Helper lemmas -/

/-- The second component of an `enum` entry is a member of the list. -/
theorem snd_mem_of_mem_enum {α : Type} {l : List α} {ik : Nat × α}
    (h : ik ∈ l.enum) : ik.2 ∈ l := by
  have h' := List.mem_map_of_mem Prod.snd h
  rwa [List.enum_map_snd] at h'

/-- `removeParticipant` keeps exactly the entries different from the given
name. -/
theorem removeParticipant_mem (ps : List String) (n p : String) :
    p ∈ removeParticipant ps n ↔ p ∈ ps ∧ p ≠ n := by
  simp [removeParticipant]

/-- How the post-submission store evaluates on each extraction outcome. -/
theorem storeAfterSubmit_eq (st : Store) (input : MeetingInput)
    (client : ModelClient) (ceiling : Nat) (mid : String) :
    (retryExtract client ceiling = none →
      storeAfterSubmit st input client ceiling mid = st) ∧
    (∀ p, retryExtract client ceiling = some p →
      storeAfterSubmit st input client ceiling mid =
        persistExtraction st mid input p) := by
  unfold storeAfterSubmit submitMeeting
  cases hres : retryExtract client ceiling with
  | none =>
    exact ⟨fun _ => rfl, fun p hp => Option.noConfusion hp⟩
  | some q =>
    refine ⟨fun hn => Option.noConfusion hn, fun p hp => ?_⟩
    cases hp
    rfl

/-- The retry loop fails when every attempt within the budget fails. -/
theorem retryFrom_fail (client : ModelClient) :
    ∀ (fuel start : Nat),
      (∀ k, k < fuel → acceptedAttempt client (start + k) = none) →
      retryFrom client start fuel = none := by
  intro fuel
  induction fuel with
  | zero => intro start _; rfl
  | succ f ih =>
    intro start h
    have h0 : acceptedAttempt client start = none := by
      simpa using h 0 (Nat.succ_pos f)
    show (match acceptedAttempt client start with
          | some p => some p
          | none => retryFrom client (start + 1) f) = none
    rw [h0]
    exact ih (start + 1) (fun k hk => by
      have h1 := h (k + 1) (by omega)
      have e : start + (k + 1) = start + 1 + k := by omega
      rw [e] at h1
      exact h1)

/-- The retry loop returns the first accepted payload when one appears inside
the attempt budget. -/
theorem retryFrom_success (client : ModelClient) :
    ∀ (N start fuel : Nat) (p : ExtractionPayload),
      (∀ k, k < N → acceptedAttempt client (start + k) = none) →
      acceptedAttempt client (start + N) = some p →
      N < fuel →
      retryFrom client start fuel = some p := by
  intro N
  induction N with
  | zero =>
    intro start fuel p _ hsucc hlt
    cases fuel with
    | zero => omega
    | succ f =>
      show (match acceptedAttempt client start with
            | some q => some q
            | none => retryFrom client (start + 1) f) = some p
      rw [show acceptedAttempt client start = some p by simpa using hsucc]
  | succ n ih =>
    intro start fuel p hfail hsucc hlt
    cases fuel with
    | zero => omega
    | succ f =>
      have h0 : acceptedAttempt client start = none := by
        simpa using hfail 0 (Nat.succ_pos n)
      show (match acceptedAttempt client start with
            | some q => some q
            | none => retryFrom client (start + 1) f) = some p
      rw [h0]
      refine ih (start + 1) f p (fun k hk => ?_) ?_ (by omega)
      · have h1 := hfail (k + 1) (by omega)
        have e : start + (k + 1) = start + 1 + k := by omega
        rw [e] at h1
        exact h1
      · have e : start + (n + 1) = start + 1 + n := by omega
        rw [e] at hsucc
        exact hsucc

/-- Any payload the retry loop returns passed schema validation. -/
theorem retryFrom_valid (client : ModelClient) :
    ∀ (fuel start : Nat) (p : ExtractionPayload),
      retryFrom client start fuel = some p → payloadValid p = true := by
  intro fuel
  induction fuel with
  | zero =>
    intro start p h
    exact Option.noConfusion h
  | succ f ih =>
    intro start p h
    have h' : (match acceptedAttempt client start with
               | some q => some q
               | none => retryFrom client (start + 1) f) = some p := h
    cases ha : acceptedAttempt client start with
    | some q =>
      rw [ha] at h'
      cases h'
      unfold acceptedAttempt at ha
      cases hc : client start with
      | none =>
        rw [hc] at ha
        cases ha
      | some r =>
        rw [hc] at ha
        have ha' : (if payloadValid r = true then some r else none) = some p := ha
        by_cases hv : payloadValid r = true
        · rw [if_pos hv] at ha'
          cases ha'
          exact hv
        · rw [if_neg hv] at ha'
          cases ha'
    | none =>
      rw [ha] at h'
      exact ih (start + 1) p h'

/-! ## Claim theorems -/

/-- C1, counterexample: at confidence score 0.8 the meeting-detail badge
colors yellow (MEDIUM: 80 is below the 85 threshold) while the analytics
bucket labels it HIGH (80 is at the 80 threshold), so the displayed labels
disagree. -/
theorem confidence_thresholds_counterexample :
    labelOfColor (meetingDetailConfidenceColor (4/5)) ≠
      analyticsConfidenceLabel (4/5) := by
  have h1 : meetingDetailConfidenceColor (4/5) = BadgeColor.yellow := by
    unfold meetingDetailConfidenceColor
    rw [if_neg (by norm_num), if_pos (by norm_num)]
  have h2 : analyticsConfidenceLabel (4/5) = ConfLabel.HIGH := by
    unfold analyticsConfidenceLabel
    rw [if_pos (by norm_num)]
  rw [h1, h2]
  decide

/-- C1, amended: the label-to-color pairing (HIGH green, MEDIUM yellow, LOW
red) is shared, and the tasks-page badge colors by the stored label string;
but the two score-based computations use different thresholds (85/70 on the
meeting-detail page, 80/60 in the analytics buckets), so they agree exactly
on the scores whose percentage lies outside `[60,70) ∪ [80,85)`. -/
theorem confidence_thresholds_amended (s : ℚ) :
    (labelOfColor (meetingDetailConfidenceColor s) = analyticsConfidenceLabel s ↔
      ¬ ((60 ≤ s * 100 ∧ s * 100 < 70) ∨ (80 ≤ s * 100 ∧ s * 100 < 85))) ∧
    ∀ l : ConfLabel, getConfidenceBadgeColor (labelString l) = colorOfLabel l := by
  constructor
  · unfold meetingDetailConfidenceColor analyticsConfidenceLabel
    by_cases h85 : s * 100 ≥ 85
    · rw [if_pos h85, if_pos (show s * 100 ≥ 80 by linarith)]
      exact iff_of_true rfl (by rintro (⟨h1, h2⟩ | ⟨h1, h2⟩) <;> linarith)
    · rw [if_neg h85]
      by_cases h70 : s * 100 ≥ 70
      · rw [if_pos h70]
        by_cases h80 : s * 100 ≥ 80
        · rw [if_pos h80]
          push_neg at h85
          exact iff_of_false (by decide) (not_not_intro (Or.inr ⟨h80, h85⟩))
        · rw [if_neg h80, if_pos (show s * 100 ≥ 60 by linarith)]
          push_neg at h80 h85
          exact iff_of_true rfl (by rintro (⟨h1, h2⟩ | ⟨h1, h2⟩) <;> linarith)
      · rw [if_neg h70]
        by_cases h80 : s * 100 ≥ 80
        · push_neg at h70
          exact absurd h80 (not_le.mpr (by linarith))
        · rw [if_neg h80]
          by_cases h60 : s * 100 ≥ 60
          · rw [if_pos h60]
            push_neg at h70
            exact iff_of_false (by decide) (not_not_intro (Or.inl ⟨h60, h70⟩))
          · rw [if_neg h60]
            push_neg at h60 h70 h80 h85
            exact iff_of_true rfl (by rintro (⟨h1, h2⟩ | ⟨h1, h2⟩) <;> linarith)
  · intro l
    cases l <;> rfl

/-- C9, counterexample: a non-ok response whose body is not parseable JSON
(status 500) makes the client throw with message `An error occurred` — the
catch-branch fallback — not the status template the claim prescribes. -/
theorem request_error_counterexample :
    request ⟨false, 500, none⟩ = Except.error "An error occurred" ∧
    claimedErrorMessage ⟨false, 500, none⟩ = "HTTP error! status: 500" ∧
    ("An error occurred" : String) ≠ "HTTP error! status: 500" := by
  refine ⟨rfl, rfl, by decide⟩

/-- C9, amended: a non-ok response always throws and never returns; the
message is the body's `detail` when the body parses to JSON with a non-empty
`detail`, the status template when the body parses but `detail` is absent or
empty, and `An error occurred` when the body is not parseable JSON; an ok
response returns the parsed body. -/
theorem request_error_behaviour (resp : HttpResponse) :
    (resp.ok = true → request resp = Except.ok resp.body) ∧
    (resp.ok = false → request resp = Except.error (requestErrorMessage resp)) ∧
    (resp.body = none → requestErrorMessage resp = "An error occurred") ∧
    (∀ b, resp.body = some b → b.detail = none →
      requestErrorMessage resp = "HTTP error! status: " ++ toString resp.status) ∧
    (∀ b, resp.body = some b → b.detail = some "" →
      requestErrorMessage resp = "HTTP error! status: " ++ toString resp.status) ∧
    (∀ b d, resp.body = some b → b.detail = some d → d ≠ "" →
      requestErrorMessage resp = d) := by
  refine ⟨?_, ?_, ?_, ?_, ?_, ?_⟩
  · intro h
    simp [request, h]
  · intro h
    simp [request, h]
  · intro h
    simp [requestErrorMessage, errorBodyDetail, h]
  · intro b hb hd
    simp [requestErrorMessage, errorBodyDetail, hb, hd]
  · intro b hb hd
    simp [requestErrorMessage, errorBodyDetail, hb, hd]
  · intro b d hb hd hne
    simp [requestErrorMessage, errorBodyDetail, hb, hd, hne]

/-- C9, witness: the amended behaviour evaluated on the concrete unparseable
500 response. -/
theorem request_error_behaviour_witness :
    request ⟨false, 500, (none : Option JsonBody)⟩ =
      Except.error (requestErrorMessage ⟨false, 500, none⟩) ∧
    requestErrorMessage ⟨false, 500, (none : Option JsonBody)⟩ =
      "An error occurred" :=
  ⟨(request_error_behaviour ⟨false, 500, none⟩).2.1 rfl,
   (request_error_behaviour ⟨false, 500, none⟩).2.2.1 rfl⟩

/-- C10: every participant list the new-meeting form can reach has no
duplicates and no blank entries, and `removeParticipant` removes exactly the
entries equal to the given name. -/
theorem participants_invariant (ps : List String)
    (h : ReachableParticipants ps) :
    ps.Nodup ∧ (∀ p ∈ ps, p ≠ "") ∧
    ∀ n p, p ∈ removeParticipant ps n ↔ p ∈ ps ∧ p ≠ n := by
  have key : ps.Nodup ∧ ∀ p ∈ ps, p ≠ "" := by
    induction h with
    | init => exact ⟨by decide, by decide⟩
    | add ps' c hps ih =>
      unfold addParticipant
      split_ifs with hc
      · obtain ⟨hne, hnotin⟩ := hc
        obtain ⟨hnd, hmem⟩ := ih
        refine ⟨?_, ?_⟩
        · simp [List.nodup_append, hnd, hnotin]
        · intro p hp
          rcases List.mem_append.mp hp with h1 | h1
          · exact hmem p h1
          · rw [List.mem_singleton] at h1
            subst h1
            exact hne
      · exact ih
    | remove ps' n hps ih =>
      obtain ⟨hnd, hmem⟩ := ih
      exact ⟨hnd.filter _, fun p hp => hmem p (List.mem_of_mem_filter hp)⟩
  exact ⟨key.1, key.2, fun n p => removeParticipant_mem ps n p⟩

/-- C10, witness: the invariant applied to the form's initial state. -/
theorem participants_invariant_witness : initialParticipants.Nodup :=
  (participants_invariant initialParticipants ReachableParticipants.init).1

/-- C4: applying the `is_complete: true` partial update twice through
`PUT /action-items/<id>` leaves the whole store exactly as applying it
once. -/
theorem update_complete_idempotent (st : Store) (targetId : String) :
    updateActionItem (updateActionItem st targetId completeTrueUpdate) targetId
        completeTrueUpdate =
      updateActionItem st targetId completeTrueUpdate := by
  have hmap :
      ((st.actionItems.map (fun it =>
          if it.id = targetId then applyUpdate it completeTrueUpdate else it)).map
        (fun it =>
          if it.id = targetId then applyUpdate it completeTrueUpdate else it)) =
      st.actionItems.map (fun it =>
          if it.id = targetId then applyUpdate it completeTrueUpdate else it) := by
    rw [List.map_map]
    apply List.map_congr_left
    intro it _
    simp only [Function.comp_apply]
    by_cases hid : it.id = targetId
    · rw [if_pos hid,
        if_pos (show (applyUpdate it completeTrueUpdate).id = targetId from hid)]
      rfl
    · rw [if_neg hid, if_neg hid]
  exact congrArg
    (fun l => Store.mk st.meetings l st.riskFlags st.clarifications) hmap

/-- C7: `PUT /action-items/<id>` is a field-level partial update: only the
row with the target id changes, only through `applyUpdate`; fields absent
from the request and every non-updatable field (id, meeting id, description,
confidence label, confidence score) are preserved, fields present are
overwritten, and the meetings, risk-flag and clarification tables are
untouched. -/
theorem update_partial_frame (st : Store) (targetId : String)
    (u : ActionItemUpdate) :
    (updateActionItem st targetId u).meetings = st.meetings ∧
    (updateActionItem st targetId u).riskFlags = st.riskFlags ∧
    (updateActionItem st targetId u).clarifications = st.clarifications ∧
    (updateActionItem st targetId u).actionItems =
      st.actionItems.map
        (fun it => if it.id = targetId then applyUpdate it u else it) ∧
    (∀ it : StoredActionItem, it.id ≠ targetId →
      (if it.id = targetId then applyUpdate it u else it) = it) ∧
    (∀ it : StoredActionItem,
      (applyUpdate it u).id = it.id ∧
      (applyUpdate it u).meeting_id = it.meeting_id ∧
      (applyUpdate it u).description = it.description ∧
      (applyUpdate it u).confidence = it.confidence ∧
      (applyUpdate it u).confidence_score = it.confidence_score) ∧
    (∀ it : StoredActionItem,
      (u.owner = none → (applyUpdate it u).owner = it.owner) ∧
      (u.deadline = none → (applyUpdate it u).deadline = it.deadline) ∧
      (u.priority = none → (applyUpdate it u).priority = it.priority) ∧
      (u.is_complete = none →
        (applyUpdate it u).is_complete = it.is_complete)) ∧
    (∀ it : StoredActionItem,
      (∀ v, u.owner = some v → (applyUpdate it u).owner = some v) ∧
      (∀ v, u.deadline = some v → (applyUpdate it u).deadline = some v) ∧
      (∀ v, u.priority = some v → (applyUpdate it u).priority = v) ∧
      (∀ v, u.is_complete = some v → (applyUpdate it u).is_complete = v)) := by
  refine ⟨rfl, rfl, rfl, rfl, ?_, ?_, ?_, ?_⟩
  · intro it hne
    rw [if_neg hne]
  · intro it
    exact ⟨rfl, rfl, rfl, rfl, rfl⟩
  · intro it
    refine ⟨?_, ?_, ?_, ?_⟩ <;> intro hf <;> simp [applyUpdate, hf]
  · intro it
    refine ⟨?_, ?_, ?_, ?_⟩ <;> intro v hf <;> simp [applyUpdate, hf]

/-- C7, witness: the frame conditions evaluated on a concrete row and the
concrete `is_complete`-only update. -/
theorem update_partial_frame_witness :
    (if itemRow1.id = "zzz" then applyUpdate itemRow1 completeTrueUpdate
     else itemRow1) = itemRow1 ∧
    (applyUpdate itemRow1 completeTrueUpdate).owner = itemRow1.owner ∧
    (applyUpdate itemRow1 completeTrueUpdate).is_complete = true :=
  ⟨(update_partial_frame store1 "zzz" completeTrueUpdate).2.2.2.2.1 itemRow1
      (by decide),
   ((update_partial_frame store1 "zzz" completeTrueUpdate).2.2.2.2.2.2.1
      itemRow1).1 rfl,
   (((update_partial_frame store1 "zzz" completeTrueUpdate).2.2.2.2.2.2.2
      itemRow1).2.2.2) true rfl⟩

/-- C5: deleting a meeting removes its row, all of its action items, and
every risk flag and clarification question whose parent action item belonged
to it — afterwards no surviving record references the deleted meeting,
directly or through its parent item. -/
theorem delete_cascade (st : Store) (mid : String) :
    (∀ m ∈ (deleteMeeting st mid).meetings, m.id ≠ mid) ∧
    (∀ it ∈ (deleteMeeting st mid).actionItems, it.meeting_id ≠ mid) ∧
    (∀ r ∈ (deleteMeeting st mid).riskFlags,
      ∀ it ∈ st.actionItems, it.id = r.action_item_id → it.meeting_id ≠ mid) ∧
    (∀ c ∈ (deleteMeeting st mid).clarifications,
      ∀ it ∈ st.actionItems, it.id = c.action_item_id → it.meeting_id ≠ mid) := by
  have hdoomed : ∀ (aid : String),
      (!((st.actionItems.filter (fun it => it.meeting_id == mid)).any
          (fun it => it.id == aid))) = true →
      ∀ it ∈ st.actionItems, it.id = aid → it.meeting_id ≠ mid := by
    intro aid hb it hit hid hmid
    rw [Bool.not_eq_true'] at hb
    have hmem : it ∈ st.actionItems.filter (fun it => it.meeting_id == mid) :=
      List.mem_filter.mpr ⟨hit, by simp [hmid]⟩
    have htrue : ((st.actionItems.filter (fun it => it.meeting_id == mid)).any
        (fun it => it.id == aid)) = true :=
      List.any_eq_true.mpr ⟨it, hmem, by simp [hid]⟩
    rw [htrue] at hb
    cases hb
  refine ⟨?_, ?_, ?_, ?_⟩
  · intro m hm
    have h' : (deleteMeeting st mid).meetings =
        st.meetings.filter (fun m => m.id != mid) := rfl
    rw [h'] at hm
    have := (List.mem_filter.mp hm).2
    simpa using this
  · intro it hit
    have h' : (deleteMeeting st mid).actionItems =
        st.actionItems.filter (fun it => it.meeting_id != mid) := rfl
    rw [h'] at hit
    have := (List.mem_filter.mp hit).2
    simpa using this
  · intro r hr
    have h' : (deleteMeeting st mid).riskFlags =
        st.riskFlags.filter (fun r =>
          !((st.actionItems.filter (fun it => it.meeting_id == mid)).any
            (fun it => it.id == r.action_item_id))) := rfl
    rw [h'] at hr
    exact hdoomed r.action_item_id (List.mem_filter.mp hr).2
  · intro c hc
    have h' : (deleteMeeting st mid).clarifications =
        st.clarifications.filter (fun c =>
          !((st.actionItems.filter (fun it => it.meeting_id == mid)).any
            (fun it => it.id == c.action_item_id))) := rfl
    rw [h'] at hc
    exact hdoomed c.action_item_id (List.mem_filter.mp hc).2

/-- C5, witness: the cascade evaluated on a concrete two-meeting store — the
surviving flag of item `a2` belongs to a meeting other than the deleted
`m1`. -/
theorem delete_cascade_witness : itemRow2.meeting_id ≠ "m1" :=
  (delete_cascade store1 "m1").2.2.1 flagRow2 (by decide) itemRow2 (by decide)
    rfl

/-- C8: a recorded clarification answer is never changed afterwards: a later
`POST /action-items/<id>/clarify` leaves an answered question untouched
(settable once), `PUT /action-items/<id>` does not touch the clarification
table, deletion only removes rows, and a submission only appends rows; an
unanswered matching question does get the submitted answer and timestamp
recorded. -/
theorem clarification_answer_immutable (st : Store) (i i2 mid mid2 : String)
    (q : Nat) (ans now : String) (u : ActionItemUpdate) (input : MeetingInput)
    (client : ModelClient) (ceiling : Nat) :
    (∀ (j : Nat) (c : StoredClarification) (a : String),
      st.clarifications[j]? = some c → c.answer = some a →
      (answerClarification st i q ans now).clarifications[j]? = some c) ∧
    (updateActionItem st i2 u).clarifications = st.clarifications ∧
    (∀ c ∈ (deleteMeeting st mid).clarifications, c ∈ st.clarifications) ∧
    (∀ (j : Nat) (c : StoredClarification), st.clarifications[j]? = some c →
      (storeAfterSubmit st input client ceiling mid2).clarifications[j]? =
        some c) ∧
    (∀ (j : Nat) (c : StoredClarification),
      st.clarifications[j]? = some c → c.action_item_id = i → c.id = q →
      c.answer = none →
      (answerClarification st i q ans now).clarifications[j]? =
        some { c with answer := some ans, answered_at := some now }) := by
  have hmap : (answerClarification st i q ans now).clarifications =
      st.clarifications.map (fun c =>
        if c.action_item_id = i ∧ c.id = q ∧ c.answer = none then
          { c with answer := some ans, answered_at := some now }
        else c) := rfl
  refine ⟨?_, rfl, ?_, ?_, ?_⟩
  · intro j c a hj ha
    rw [hmap, List.getElem?_map, hj]
    have hguard : ¬ (c.action_item_id = i ∧ c.id = q ∧ c.answer = none) := by
      rintro ⟨-, -, hnone⟩
      rw [ha] at hnone
      cases hnone
    simp [hguard]
  · intro c hc
    have h' : (deleteMeeting st mid).clarifications =
        st.clarifications.filter (fun c =>
          !((st.actionItems.filter (fun it => it.meeting_id == mid)).any
            (fun it => it.id == c.action_item_id))) := rfl
    rw [h'] at hc
    exact List.mem_of_mem_filter hc
  · intro j c hj
    cases hres : retryExtract client ceiling with
    | none =>
      rw [(storeAfterSubmit_eq st input client ceiling mid2).1 hres]
      exact hj
    | some p =>
      rw [(storeAfterSubmit_eq st input client ceiling mid2).2 p hres]
      have hlt : j < st.clarifications.length := by
        rcases List.getElem?_eq_some.mp hj with ⟨hl, -⟩
        exact hl
      have h' : (persistExtraction st mid2 input p).clarifications =
          st.clarifications ++
            (p.items.enum.map (extractedClarRows mid2)).flatten := rfl
      rw [h', List.getElem?_append_left hlt]
      exact hj
  · intro j c hj h1 h2 h3
    rw [hmap, List.getElem?_map, hj]
    simp [h1, h2, h3]

/-- C8, witness: answering question 1 of item `a1` again, after `Mike` has
been recorded, leaves the stored row unchanged. -/
theorem clarification_answer_immutable_witness :
    (answerClarification store1 "a1" 1 "different answer"
        "2026-02-02").clarifications[0]? = some clarRow1 :=
  (clarification_answer_immutable store1 "a1" "a1" "m1" "m9" 1
      "different answer" "2026-02-02" completeTrueUpdate input0 client0 3).1
    0 clarRow1 "Mike" rfl rfl

/-- C2: a `POST /meetings` submission is atomic — when extraction succeeds
the transaction persists the meeting row together with exactly as many
action items as the validated payload carries, and when extraction fails the
submission errors and the durable store is exactly the previous one, holding
no record of the new meeting. -/
theorem submit_atomic (st : Store) (input : MeetingInput)
    (client : ModelClient) (ceiling : Nat) (mid : String)
    (hm : ∀ m ∈ st.meetings, m.id ≠ mid)
    (hi : ∀ it ∈ st.actionItems, it.meeting_id ≠ mid) :
    (∀ p, retryExtract client ceiling = some p →
      submitMeeting st input client ceiling mid =
        Except.ok (persistExtraction st mid input p) ∧
      storeAfterSubmit st input client ceiling mid =
        persistExtraction st mid input p ∧
      newMeetingRow mid input p ∈ (persistExtraction st mid input p).meetings ∧
      (newMeetingRow mid input p).id = mid ∧
      ((persistExtraction st mid input p).actionItems.filter
          (fun it => it.meeting_id == mid)).length = p.items.length) ∧
    (retryExtract client ceiling = none →
      submitMeeting st input client ceiling mid =
        Except.error "extraction failed" ∧
      storeAfterSubmit st input client ceiling mid = st ∧
      (∀ m ∈ (storeAfterSubmit st input client ceiling mid).meetings,
        m.id ≠ mid) ∧
      (∀ it ∈ (storeAfterSubmit st input client ceiling mid).actionItems,
        it.meeting_id ≠ mid)) := by
  constructor
  · intro p hres
    have hsub : submitMeeting st input client ceiling mid =
        Except.ok (persistExtraction st mid input p) := by
      unfold submitMeeting
      rw [hres]
    refine ⟨hsub, (storeAfterSubmit_eq st input client ceiling mid).2 p hres,
      ?_, rfl, ?_⟩
    · have h' : (persistExtraction st mid input p).meetings =
          st.meetings ++ [newMeetingRow mid input p] := rfl
      rw [h']
      exact List.mem_append_right _ (List.mem_singleton_self _)
    · have h' : (persistExtraction st mid input p).actionItems =
          st.actionItems ++ p.items.enum.map (extractedItemRow mid) := rfl
      rw [h', List.filter_append, List.length_append]
      have h1 : st.actionItems.filter (fun it => it.meeting_id == mid) = [] := by
        rw [List.filter_eq_nil_iff]
        intro a ha
        simp [hi a ha]
      have h2 : (p.items.enum.map (extractedItemRow mid)).filter
          (fun it => it.meeting_id == mid) =
          p.items.enum.map (extractedItemRow mid) := by
        rw [List.filter_eq_self]
        intro a ha
        rcases List.mem_map.mp ha with ⟨ik, -, rfl⟩
        simp [extractedItemRow]
      rw [h1, h2]
      simp [List.enum_length]
  · intro hres
    have hsub : submitMeeting st input client ceiling mid =
        Except.error "extraction failed" := by
      unfold submitMeeting
      rw [hres]
    have hsame : storeAfterSubmit st input client ceiling mid = st :=
      (storeAfterSubmit_eq st input client ceiling mid).1 hres
    refine ⟨hsub, hsame, ?_, ?_⟩
    · rw [hsame]
      exact hm
    · rw [hsame]
      exact hi

/-- C2, witness: a concrete successful submission persists the transaction's
result, and a concrete exhausted-retries submission leaves the empty store
empty. -/
theorem submit_atomic_witness :
    storeAfterSubmit emptyStore input0 client0 3 "m1" =
      persistExtraction emptyStore "m1" input0 payload0 ∧
    storeAfterSubmit emptyStore input0 clientFail 3 "m1" = emptyStore :=
  ⟨(((submit_atomic emptyStore input0 client0 3 "m1" (by simp [emptyStore])
        (by simp [emptyStore])).1 payload0 rfl).2).1,
   ((submit_atomic emptyStore input0 clientFail 3 "m1" (by simp [emptyStore])
        (by simp [emptyStore])).2 rfl).2.1⟩

/-- C3: the retry policy — a client whose accepted attempts fail `N` times
and then succeed with `N` below the ceiling makes the extraction call
succeed; a client failing on every attempt up to the ceiling makes it fail,
the failure is surfaced as an extraction failure, and the durable store is
unchanged; a non-conforming payload counts as a failed attempt, never
accepted. -/
theorem retry_policy (client : ModelClient) (st : Store)
    (input : MeetingInput) (ceiling N : Nat) (p : ExtractionPayload)
    (mid : String) :
    ((∀ k, k < N → acceptedAttempt client k = none) →
      acceptedAttempt client N = some p → N < ceiling →
      retryExtract client ceiling = some p ∧
      submitMeeting st input client ceiling mid =
        Except.ok (persistExtraction st mid input p)) ∧
    ((∀ k, k < ceiling → acceptedAttempt client k = none) →
      retryExtract client ceiling = none ∧
      submitMeeting st input client ceiling mid =
        Except.error "extraction failed" ∧
      storeAfterSubmit st input client ceiling mid = st) ∧
    (∀ (k : Nat) (q : ExtractionPayload), client k = some q →
      payloadValid q = false → acceptedAttempt client k = none) := by
  refine ⟨?_, ?_, ?_⟩
  · intro hfail hsucc hlt
    have hr : retryExtract client ceiling = some p :=
      retryFrom_success client N 0 ceiling p
        (fun k hk => by simpa using hfail k hk) (by simpa using hsucc) hlt
    refine ⟨hr, ?_⟩
    unfold submitMeeting
    rw [hr]
  · intro hfail
    have hr : retryExtract client ceiling = none :=
      retryFrom_fail client ceiling 0 (fun k hk => by simpa using hfail k hk)
    refine ⟨hr, ?_, (storeAfterSubmit_eq st input client ceiling mid).1 hr⟩
    unfold submitMeeting
    rw [hr]
  · intro k q hk hv
    show (match client k with
          | none => none
          | some r => if payloadValid r = true then some r else none) = none
    rw [hk]
    exact if_neg (by simp [hv])

/-- C3, witness: a client failing once then succeeding under ceiling 3
succeeds; a client failing every attempt under ceiling 2 fails and leaves
the empty store empty. -/
theorem retry_policy_witness :
    retryExtract client1 3 = some payload0 ∧
    retryExtract clientFail 2 = none ∧
    storeAfterSubmit emptyStore input0 clientFail 2 "m1" = emptyStore :=
  ⟨((retry_policy client1 emptyStore input0 3 1 payload0 "m1").1
      (fun k hk => by
        have hk0 : k = 0 := by omega
        subst hk0
        rfl)
      rfl (by decide)).1,
   ((retry_policy clientFail emptyStore input0 2 0 payload0 "m1").2.1
      (fun k hk => rfl)).1,
   ((retry_policy clientFail emptyStore input0 2 0 payload0 "m1").2.1
      (fun k hk => rfl)).2.2⟩

/-- C6: in every reachable store, every action item's confidence score lies
in `[0,1]` and its coarse label is the function `derivedLabel` of that
score, and every meeting's overall confidence lies in `[0,1]`; every
operation (submission, partial update, clarification answering, deletion)
preserves this. -/
theorem confidence_invariant (st : Store) (h : ReachableStore st) :
    (∀ it ∈ st.actionItems,
      0 ≤ it.confidence_score ∧ it.confidence_score ≤ 1 ∧
      it.confidence = derivedLabel it.confidence_score) ∧
    (∀ m ∈ st.meetings, 0 ≤ m.total_confidence ∧ m.total_confidence ≤ 1) := by
  induction h with
  | empty => exact ⟨by simp [emptyStore], by simp [emptyStore]⟩
  | submit st input client ceiling mid hst ih =>
    cases hres : retryExtract client ceiling with
    | none =>
      rw [(storeAfterSubmit_eq st input client ceiling mid).1 hres]
      exact ih
    | some p =>
      rw [(storeAfterSubmit_eq st input client ceiling mid).2 p hres]
      have hv : payloadValid p = true := retryFrom_valid client ceiling 0 p hres
      unfold payloadValid at hv
      rw [Bool.and_eq_true, Bool.and_eq_true] at hv
      obtain ⟨⟨h0, h1⟩, hall⟩ := hv
      rw [decide_eq_true_eq] at h0 h1
      constructor
      · intro it hit
        have h' : (persistExtraction st mid input p).actionItems =
            st.actionItems ++ p.items.enum.map (extractedItemRow mid) := rfl
        rw [h'] at hit
        rcases List.mem_append.mp hit with hold | hnew
        · exact ih.1 it hold
        · rcases List.mem_map.mp hnew with ⟨ik, hik, rfl⟩
          have hik2 := List.all_eq_true.mp hall ik.2 (snd_mem_of_mem_enum hik)
          rw [Bool.and_eq_true, decide_eq_true_eq, decide_eq_true_eq] at hik2
          exact ⟨hik2.1, hik2.2, rfl⟩
      · intro m hm
        have h' : (persistExtraction st mid input p).meetings =
            st.meetings ++ [newMeetingRow mid input p] := rfl
        rw [h'] at hm
        rcases List.mem_append.mp hm with hold | hnew
        · exact ih.2 m hold
        · rw [List.mem_singleton] at hnew
          subst hnew
          exact ⟨h0, h1⟩
  | update st i u hst ih =>
    constructor
    · intro it hit
      have h' : (updateActionItem st i u).actionItems =
          st.actionItems.map
            (fun it => if it.id = i then applyUpdate it u else it) := rfl
      rw [h'] at hit
      rcases List.mem_map.mp hit with ⟨it0, hit0, rfl⟩
      by_cases hid : it0.id = i
      · rw [if_pos hid]
        exact ih.1 it0 hit0
      · rw [if_neg hid]
        exact ih.1 it0 hit0
    · intro m hm
      exact ih.2 m hm
  | clarify st i q ans now hst ih => exact ih
  | delete st mid hst ih =>
    constructor
    · intro it hit
      have h' : (deleteMeeting st mid).actionItems =
          st.actionItems.filter (fun it => it.meeting_id != mid) := rfl
      rw [h'] at hit
      exact ih.1 it (List.mem_of_mem_filter hit)
    · intro m hm
      have h' : (deleteMeeting st mid).meetings =
          st.meetings.filter (fun m => m.id != mid) := rfl
      rw [h'] at hm
      exact ih.2 m (List.mem_of_mem_filter hm)

/-- C6, witness: the invariant applied to the store reached by one concrete
successful submission, evaluated at its persisted meeting row. -/
theorem confidence_invariant_witness :
    0 ≤ meetingRow0.total_confidence ∧ meetingRow0.total_confidence ≤ 1 :=
  (confidence_invariant _
      (ReachableStore.submit emptyStore input0 client0 3 "m1"
        ReachableStore.empty)).2
    meetingRow0 (by decide)

end TaskLedger
